import Mathlib

/-!
# keep-ecdsa: signing session and in-memory test network

A shallow embedding of

* `pkg/ecdsa/tss/signing.go`: `InitializeSigning`, `SigningSigner.Sign`,
  `convertSignatureTSStoECDSA`;
* `pkg/ecdsa/tss/keygen_test.go`: `testNetwork` with `register` and `deliver`.

Go values are represented as follows.

* A byte is a `Fin 256`; a `[]byte` and a `string` are both `List Byte`
  (the conversion `string(b)` keeps the bytes as they are).
* A pointer or interface that may be `nil` is an `Option`.
* A runtime panic is an explicit outcome, never a returned value.
* Every goroutine started by `go func() ...` is recorded as a `DeliveryTask`.
-/

namespace KeepEcdsa

/-! ## Bytes and `math/big` -/

/-- One Go `byte`. -/
abbrev Byte := Fin 256

/-- Go `[]byte`; also the contents of a Go `string`. -/
abbrev Bytes := List Byte

/-- Go standard library `new(big.Int).SetBytes(buf)`: the value is built most
significant byte first, one byte at a time. The result is never negative, so it
is computed over `Nat`. -/
def SetBytes (buf : Bytes) : Nat :=
  buf.foldl (fun acc b => acc * 256 + b.val) 0

/-! ## Signatures -/

/-- The engine type `signing.SignatureData` of tss-lib, with its five byte-slice
fields. The getters `GetR`, `GetS`, `GetSignatureRecovery` return the fields. -/
structure SignatureData where
  Signature : Bytes
  SignatureRecovery : Bytes
  R : Bytes
  S : Bytes
  M : Bytes
deriving DecidableEq

/-- Modelled from the spec: the type `ecdsa.Signature`, declared in package
`pkg/ecdsa` and not in the files embedded here. It carries `R`, `S` (big
integers) and `RecoveryID` (a Go `int`). -/
structure Signature where
  R : Int
  S : Int
  RecoveryID : Int
deriving DecidableEq

/-- The function `convertSignatureTSStoECDSA`. The index expression
`recoveryBytes[0]` panics on an empty slice; that is the result `none`. In
`(recoveryInt << 8) | int(recoveryBytes[0])` both operands are non-negative and
the result is below 256, so the fixed-width `int` arithmetic agrees with the
arithmetic of `Nat`. -/
def convertSignatureTSStoECDSA (tssSignature : SignatureData) : Option Signature :=
  let recoveryBytes := tssSignature.SignatureRecovery
  let recoveryInt : Nat := 0
  match recoveryBytes with
  | [] => none
  | b0 :: _ =>
    let recoveryInt := (recoveryInt <<< 8) ||| b0.val
    some
      { R := (SetBytes tssSignature.R : Int)
        S := (SetBytes tssSignature.S : Int)
        RecoveryID := (recoveryInt : Int) }

/-! ## Errors, channels and the engine party -/

/-- A Go `error` value that is not nil, identified with its message. A value of
type `error` that may be nil is an `Option GoError`. -/
abbrev GoError := String

/-- The text the verb `%v` prints for an error value. -/
def formatV (v : Option GoError) : String :=
  match v with
  | none => "<nil>"
  | some e => e

/-- Go `fmt.Errorf(format)` with no argument: always a non-nil error. -/
def Errorf0 (format : String) : GoError := format

/-- Go `fmt.Errorf(format, v)` for a format with one `%v`, given as the text
before and after the verb: always a non-nil error. -/
def Errorf1 (before : String) (v : Option GoError) (after : String) : GoError :=
  before ++ formatV v ++ after

/-- A Go channel as one receiver sees it: the values that senders have ready
for it, oldest first, and whether the channel has been closed. A nil channel
behaves for a receiver as an open channel on which nothing is ever sent. -/
structure Chan (α : Type) where
  pending : List α
  closed : Bool
deriving DecidableEq

/-- Go `make(chan T)`. -/
def Chan.make {α : Type} : Chan α := { pending := [], closed := false }

/-- A receive `<-c` that can proceed yields the value and the channel afterwards;
`none` when it cannot proceed. A closed channel with nothing pending yields the
zero value of the element type. -/
def Chan.recv {α : Type} (zero : α) (c : Chan α) : Option (α × Chan α) :=
  match c.pending with
  | v :: rest => some (v, { c with pending := rest })
  | [] => if c.closed then some (zero, c) else none

/-- The zero value of `signing.SignatureData`: every slice is nil. -/
def SignatureData.zero : SignatureData :=
  { Signature := [], SignatureRecovery := [], R := [], S := [], M := [] }

/-- The state of the completion channel `doneChan chan struct{}`, on which the
signer only ever performs `close`. -/
inductive DoneChan where
  | nilChan
  | isOpen
  | isClosed
deriving DecidableEq

/-- The engine interface `tssLib.Party` as `Sign` uses it: the result of
`Start()` (nil on success) and the function `WrapError`. -/
structure Party where
  Start : Option GoError
  WrapError : Option GoError → Option GoError

/-- The type `SigningSigner`. The embedded `BaseMember` is not read by `Sign` and is left
out. -/
structure SigningSigner where
  signingParty : Option Party
  signingEndChan : Chan SignatureData
  signingErrChan : Chan (Option GoError)
  doneChan : DoneChan

/-- How a call ends: it returns its two results, it panics, or it stays
blocked in `select` for ever. -/
inductive Outcome where
  | returned (signature : Option Signature) (err : Option GoError)
  | panicked (reason : String)
  | blocked
deriving DecidableEq

/-- Operations a call of `Sign` performs on the party and on its channels. -/
inductive Effect where
  | startParty
  | recvEnd
  | recvErr
  | closeDone
deriving DecidableEq

/-- What a call of `Sign` leaves behind: how it ended, the signer afterwards and
the operations it performed, in order. -/
structure SignResult where
  outcome : Outcome
  signer : SigningSigner
  trace : List Effect

/-- The communication chosen by the `select` statement of `Sign`. -/
inductive Selected where
  | signature (v : SignatureData) (rest : Chan SignatureData)
  | failure (e : Option GoError) (rest : Chan (Option GoError))
  | nothing

/-- The `select` statement over the two sinks. When both receives can proceed Go
chooses one at random: `pick` is that choice (`true` for the first case). When
none can proceed the statement blocks. -/
def selectSinks (endChan : Chan SignatureData) (errChan : Chan (Option GoError))
    (pick : Bool) : Selected :=
  match endChan.recv SignatureData.zero, errChan.recv none with
  | some (v, c), some (e, d) => if pick then Selected.signature v c else Selected.failure e d
  | some (v, c), none => Selected.signature v c
  | none, some (e, d) => Selected.failure e d
  | none, none => Selected.nothing

/-- The body of `SigningSigner.Sign`, up to the point where the function exits
(the deferred call is `runDeferredClose`). Every case of the `select` returns,
so the enclosing `for` runs its body once. -/
def SignBody (s : SigningSigner) (pick : Bool) : SignResult :=
  match s.signingParty with
  | none =>
    { outcome := Outcome.returned none (some (Errorf0 "failed to get initialized signing party"))
      signer := s
      trace := [] }
  | some party =>
    match party.Start with
    | some err =>
      { outcome := Outcome.returned none
          (some (Errorf1 "failed to start signing: [" (party.WrapError (some err)) "]"))
        signer := s
        trace := [Effect.startParty] }
    | none =>
      match selectSinks s.signingEndChan s.signingErrChan pick with
      | Selected.signature signature rest =>
        match convertSignatureTSStoECDSA signature with
        | some ecdsaSignature =>
          { outcome := Outcome.returned (some ecdsaSignature) none
            signer := { s with signingEndChan := rest }
            trace := [Effect.startParty, Effect.recvEnd] }
        | none =>
          { outcome := Outcome.panicked "index out of range"
            signer := { s with signingEndChan := rest }
            trace := [Effect.startParty, Effect.recvEnd] }
      | Selected.failure err rest =>
        { outcome := Outcome.returned none
            (some (Errorf1 "failed to sign: [" (party.WrapError err) "]"))
          signer := { s with signingErrChan := rest }
          trace := [Effect.startParty, Effect.recvErr] }
      | Selected.nothing =>
        { outcome := Outcome.blocked
          signer := s
          trace := [Effect.startParty] }

/-- The deferred `close(s.doneChan)`: it runs when the body returns or panics,
and not while the body is blocked. Closing a closed or a nil channel panics, and
the panic replaces the results of the body. -/
def runDeferredClose (r : SignResult) : SignResult :=
  match r.outcome with
  | Outcome.blocked => r
  | _ =>
    match r.signer.doneChan with
    | DoneChan.isOpen =>
      { outcome := r.outcome
        signer := { r.signer with doneChan := DoneChan.isClosed }
        trace := r.trace ++ [Effect.closeDone] }
    | DoneChan.isClosed =>
      { outcome := Outcome.panicked "close of closed channel"
        signer := r.signer
        trace := r.trace ++ [Effect.closeDone] }
    | DoneChan.nilChan =>
      { outcome := Outcome.panicked "close of nil channel"
        signer := r.signer
        trace := r.trace ++ [Effect.closeDone] }

/-- The method `SigningSigner.Sign`: `defer close(s.doneChan)` around the body. -/
def Sign (s : SigningSigner) (pick : Bool) : SignResult :=
  runDeferredClose (SignBody s pick)

/-- The method `Signer.initializeSigningParty`. The party constructor `signing.NewLocalParty`
belongs to the engine and `bridgeNetwork` is declared in another file of the
package: the party the first builds and the error the second returns are
parameters. `endChan` is a fresh channel. -/
def initializeSigningParty (newLocalParty : Nat → Option Party)
    (bridgeNetwork : Option GoError) (digest : Nat) :
    Except GoError (Option Party × Chan SignatureData) :=
  let endChan : Chan SignatureData := Chan.make
  let party := newLocalParty digest
  match bridgeNetwork with
  | some err =>
    Except.error
      (Errorf1 "failed to initialize bridge network for signing: [" (some err) "]")
  | none => Except.ok (party, endChan)

/-- The method `Signer.InitializeSigning`. -/
def InitializeSigning (newLocalParty : Nat → Option Party)
    (bridgeNetwork : Option GoError) (digest : Bytes) : Except GoError SigningSigner :=
  let digestInt := SetBytes digest
  let errChan : Chan (Option GoError) := Chan.make
  let doneChan := DoneChan.isOpen
  match initializeSigningParty newLocalParty bridgeNetwork digestInt with
  | Except.error err =>
    Except.error (Errorf1 "failed to initialize signing party: [" (some err) "]")
  | Except.ok (party, endChan) =>
    Except.ok
      { signingParty := party
        signingEndChan := endChan
        signingErrChan := errChan
        doneChan := doneChan }

/-! ## The in-memory test network -/

/-- The engine type `tssLib.PartyID`. -/
structure PartyID where
  Id : String
  Moniker : String
  Key : Bytes
  Index : Int
deriving DecidableEq

/-- The engine interface `tssLib.Message` as `deliver` reads it: `GetFrom()` is
the sender and `GetTo()` the recipient slice, `none` for a nil slice (which is
not the same as a slice of length zero). -/
structure Message where
  From : PartyID
  To : Option (List PartyID)
  Payload : Bytes
deriving DecidableEq

/-- The type `testChannel`: the handler installed by `Receive`, nil until then. The field
`network` points back to the network and is left out. -/
structure testChannel where
  handler : Option (Message → Option GoError)

/-- The method `testChannel.Receive`. -/
def testChannel.Receive (_c : testChannel) (handler : Message → Option GoError) :
    testChannel :=
  { handler := some handler }

/-- The entries of the `sync.Map` held in `testNetwork.channels`, keyed by the
member name. A map holds each key once; `KeysDistinct` says so. The map holds
pointers to channels: the channel of an entry is the channel as a goroutine of
`deliver` finds it when it reads `channel.handler`. -/
abbrev SyncMap := List (Bytes × testChannel)

/-- The keys of a map. -/
def SyncMap.keys (m : SyncMap) : List Bytes := m.map Prod.fst

/-- A map holds no key twice. -/
def SyncMap.KeysDistinct (m : SyncMap) : Prop := m.keys.Nodup

/-- Go `sync.Map.Store`: the value of a key that is present is replaced, a new
key is added. -/
def SyncMap.Store (m : SyncMap) (key : Bytes) (value : testChannel) : SyncMap :=
  match m with
  | [] => [(key, value)]
  | (k, v) :: rest =>
    if k = key then (k, value) :: rest else (k, v) :: SyncMap.Store rest key value

/-- Go `sync.Map.Range`: the callback is called on the entries one after the
other for as long as it answers `true`; `σ` is what the callback has done so
far. -/
def SyncMap.Range {σ : Type} (m : SyncMap) (f : σ → Bytes → testChannel → σ × Bool)
    (init : σ) : σ :=
  match m with
  | [] => init
  | (k, v) :: rest =>
    match f init k v with
    | (acc, true) => SyncMap.Range rest f acc
    | (acc, false) => acc

/-- The type `testNetwork`. The field `errChan` is written only by the started goroutines
and is left out. -/
structure testNetwork where
  channels : SyncMap

/-- The function `newTestNetwork`. -/
def newTestNetwork : testNetwork := { channels := [] }

/-- The method `testNetwork.newTestChannel`. -/
def testNetwork.newTestChannel (_c : testNetwork) : testChannel := { handler := none }

/-- The method `testNetwork.register`. -/
def testNetwork.register (c : testNetwork) (name : Bytes) (channel : testChannel) :
    testNetwork :=
  { channels := c.channels.Store name channel }

/-- Which of the two `go func()` statements of `deliver` started a goroutine. -/
inductive DeliveryKind where
  | broadcast
  | unicast
deriving DecidableEq

/-- One goroutine started by `deliver`: it calls `channel.handler(message)` for
the channel registered under `key`. -/
structure DeliveryTask where
  key : Bytes
  channel : testChannel
  message : Message
  kind : DeliveryKind

/-- The loop `for _, destination := range to` of `deliver` for one registered
channel: the first destination with the key of the channel starts one goroutine
and ends the loop. -/
def unicastLoop (key : Bytes) (channel : testChannel) (message : Message) :
    List PartyID → List DeliveryTask
  | [] => []
  | destination :: rest =>
    if destination.Key = key then
      [{ key := key, channel := channel, message := message, kind := DeliveryKind.unicast }]
    else unicastLoop key channel message rest

/-- The callback `deliver` passes to `Range`: the goroutines started so far, with
those started for this entry added, and the answer `true` on every path. -/
def deliverVisit (message : Message) (started : List DeliveryTask) (key : Bytes)
    (channel : testChannel) : List DeliveryTask × Bool :=
  let sender := message.From
  let recipients := message.To
  if sender.Key = key then
    (started, true)
  else
    match recipients with
    | none =>
      (started ++
        [{ key := key, channel := channel, message := message, kind := DeliveryKind.broadcast }],
        true)
    | some destinations => (started ++ unicastLoop key channel message destinations, true)

/-- The method `testNetwork.deliver`: the goroutines it starts, in the order of the
iteration. -/
def testNetwork.deliver (c : testNetwork) (message : Message) : List DeliveryTask :=
  c.channels.Range (deliverVisit message) []

/-- The method `testChannel.Send`. -/
def testChannel.Send (network : testNetwork) (message : Message) :
    List DeliveryTask × Option GoError :=
  (network.deliver message, none)

/-- What a goroutine started by `deliver` does: it calls the handler and turns an
error into the value it sends on `errChan`. Calling a nil handler panics
(`none`). -/
def DeliveryTask.run (t : DeliveryTask) : Option (Option GoError) :=
  match t.channel.handler with
  | none => none
  | some handler =>
    match handler t.message with
    | none => some none
    | some err =>
      match t.kind with
      | DeliveryKind.broadcast =>
        some (some (Errorf1 "failed to deliver broadcasted message: " (some err) ""))
      | DeliveryKind.unicast =>
        some (some (Errorf1 "failed to deliver unicasted message: " (some err) ""))

/-- How many goroutines of a delivery are started for the channel registered
under `key`. -/
def goroutinesFor (tasks : List DeliveryTask) (key : Bytes) : Nat :=
  (tasks.map DeliveryTask.key).count key

/-- How many times the handler of the channel registered under `key` is called
when the goroutines of a delivery run: the goroutines for that key whose
`channel.handler(message)` is the call of a handler, and not the panic on a nil
handler. -/
def invocations (tasks : List DeliveryTask) (key : Bytes) : Nat :=
  tasks.countP (fun t => decide (t.key = key) && t.run.isSome)

/-! ## Big-endian value, as the specification words it -/

/-- The big-endian unsigned value of a byte sequence in the words of the
specification: the sum of `byte[i] * 256^(len-1-i)` over all positions `i`. -/
def bigEndianValue (buf : Bytes) : Nat :=
  ∑ i ∈ Finset.range buf.length, (buf.getD i 0).val * 256 ^ (buf.length - 1 - i)

/-- A raw signature with the given recovery bytes and fixed `R` and `S`. -/
def rawWithRecovery (recovery : Bytes) : SignatureData :=
  { Signature := [], SignatureRecovery := recovery, R := [0x12, 0x34], S := [0x00, 0xff], M := [] }

/-- An engine party whose `Start()` succeeds. -/
def readyParty : Party := { Start := none, WrapError := fun e => e }

/-- An engine party whose `Start()` fails. -/
def failingParty : Party :=
  { Start := some "could not start", WrapError := fun e => e }

/-- A signer as `InitializeSigning` leaves it (`doneChan` open), with the given
party and the given values ready on its two sinks. -/
def readySigner (party : Option Party) (signatures : List SignatureData)
    (errors : List (Option GoError)) : SigningSigner :=
  { signingParty := party
    signingEndChan := { pending := signatures, closed := false }
    signingErrChan := { pending := errors, closed := false }
    doneChan := DoneChan.isOpen }

/-- A signer on which `Sign` has returned before (`doneChan` closed), with the
given party and the given values ready on its two sinks. -/
def calledSigner (party : Option Party) (signatures : List SignatureData)
    (errors : List (Option GoError)) : SigningSigner :=
  { signingParty := party
    signingEndChan := { pending := signatures, closed := false }
    signingErrChan := { pending := errors, closed := false }
    doneChan := DoneChan.isClosed }

/-- Whether `deliver` starts a goroutine for the channel registered under `key`:
the key is not that of the sender and, when the recipient slice is not nil, some
recipient has it. Used to state what `deliver` does; `deliver` itself does not
call it. -/
def Message.reaches (message : Message) (key : Bytes) : Bool :=
  decide (message.From.Key ≠ key) &&
    match message.To with
    | none => true
    | some destinations => decide (key ∈ destinations.map PartyID.Key)

/-- The party identifier of the test member with the one-byte key `n`, as
`TestGenerateSigner` names its members (`big.NewInt(100+i).Bytes()`). -/
def memberID (n : Byte) : PartyID :=
  { Id := "member", Moniker := "member", Key := [n], Index := 0 }

/-- A channel whose handler accepts every message. -/
def acceptingChannel : testChannel :=
  testChannel.Receive (newTestNetwork.newTestChannel) (fun _ => none)

/-- The test network after the members with keys 100, 101 and 102 have
registered. -/
def threeMemberNetwork : testNetwork :=
  ((newTestNetwork.register [100] acceptingChannel).register [101] acceptingChannel).register
    [102] acceptingChannel

/-- The test network after member 100 has registered and called `Receive`, and
member 101 has registered and not yet called `Receive`: `TestGenerateSigner`
registers a channel before `NewSigner` installs its handler. -/
def unreadyNetwork : testNetwork :=
  (newTestNetwork.register [100] acceptingChannel).register [101]
    newTestNetwork.newTestChannel

/-- A message of member 100 with the given recipient slice. -/
def messageFrom100 (recipients : Option (List PartyID)) : Message :=
  { From := memberID 100, To := recipients, Payload := [0x01] }

/-! ## Theorems: signature conversion -/

theorem foldl_SetBytes_eq (buf : Bytes) (acc : Nat) :
    buf.foldl (fun a b => a * 256 + b.val) acc
      = acc * 256 ^ buf.length + bigEndianValue buf := by
  induction buf generalizing acc with
  | nil => simp [bigEndianValue]
  | cons b t ih =>
    have hsum : bigEndianValue (b :: t) = b.val * 256 ^ t.length + bigEndianValue t := by
      unfold bigEndianValue
      rw [List.length_cons, Finset.sum_range_succ']
      simp only [List.getD_cons_succ, List.getD_cons_zero, Nat.add_sub_cancel, Nat.sub_zero]
      rw [Nat.add_comm]
      congr 1
      apply Finset.sum_congr rfl
      intro i hi
      have hlt : i < t.length := Finset.mem_range.mp hi
      have hexp : t.length - (i + 1) = t.length - 1 - i := by omega
      rw [hexp]
    rw [List.foldl_cons, ih, hsum, List.length_cons]
    ring

theorem SetBytes_eq_bigEndianValue (buf : Bytes) : SetBytes buf = bigEndianValue buf := by
  unfold SetBytes
  rw [foldl_SetBytes_eq]
  simp

theorem SetBytes_replicate_zero (k : Nat) : SetBytes (List.replicate k (0 : Byte)) = 0 := by
  unfold SetBytes
  induction k with
  | zero => rfl
  | succ n ih => simpa [List.replicate_succ] using ih

theorem SetBytes_prepend_zeros (k : Nat) (buf : Bytes) :
    SetBytes (List.replicate k (0 : Byte) ++ buf) = SetBytes buf := by
  have h := SetBytes_replicate_zero k
  unfold SetBytes at h ⊢
  rw [List.foldl_append, h]

theorem convert_of_cons (sig : SignatureData) (b : Byte) (rest : Bytes)
    (h : sig.SignatureRecovery = b :: rest) :
    convertSignatureTSStoECDSA sig
      = some { R := (SetBytes sig.R : Int), S := (SetBytes sig.S : Int), RecoveryID := (b.val : Int) } := by
  simp [convertSignatureTSStoECDSA, h]

theorem convert_of_nil (sig : SignatureData) (h : sig.SignatureRecovery = []) :
    convertSignatureTSStoECDSA sig = none := by
  simp [convertSignatureTSStoECDSA, h]

/-- C2: for a raw signature whose recovery bytes are `b :: rest`, the conversion
returns a signature whose RecoveryID is the unsigned value of `b`, whatever
`rest` is. -/
theorem recoveryID_is_first_byte (sig : SignatureData) (b : Byte) (rest : Bytes)
    (h : sig.SignatureRecovery = b :: rest) :
    ∃ out, convertSignatureTSStoECDSA sig = some out ∧ out.RecoveryID = (b.val : Int) :=
  ⟨_, convert_of_cons sig b rest h, rfl⟩

/-- C2, at the two inputs the specification names: recovery bytes `[0x01, 0x07]`
decode to 1 and `[0x00]` decodes to 0. -/
theorem recoveryID_is_first_byte_witness :
    ((rawWithRecovery [0x01, 0x07]).SignatureRecovery = [0x01, 0x07] ∧
      ∃ out, convertSignatureTSStoECDSA (rawWithRecovery [0x01, 0x07]) = some out ∧
        out.RecoveryID = 1) ∧
    ((rawWithRecovery [0x00]).SignatureRecovery = [0x00] ∧
      ∃ out, convertSignatureTSStoECDSA (rawWithRecovery [0x00]) = some out ∧
        out.RecoveryID = 0) :=
  ⟨⟨rfl, recoveryID_is_first_byte (rawWithRecovery [0x01, 0x07]) 0x01 [0x07] rfl⟩,
   ⟨rfl, recoveryID_is_first_byte (rawWithRecovery [0x00]) 0x00 [] rfl⟩⟩

/-- C3: for a raw signature with non-empty recovery bytes, the conversion returns
a signature whose `R` and `S` are non-negative, equal the big-endian sums of the
raw `R` and `S` bytes, and stay the same when zero bytes are put in front of the
raw sequences. -/
theorem R_S_big_endian (sig : SignatureData) (h : sig.SignatureRecovery ≠ []) :
    ∃ out, convertSignatureTSStoECDSA sig = some out ∧
      0 ≤ out.R ∧ 0 ≤ out.S ∧
      out.R = ((bigEndianValue sig.R : Nat) : Int) ∧
      out.S = ((bigEndianValue sig.S : Nat) : Int) ∧
      ∀ j k : Nat, ∃ padded,
        convertSignatureTSStoECDSA
          { sig with R := List.replicate j (0 : Byte) ++ sig.R
                     S := List.replicate k (0 : Byte) ++ sig.S } = some padded ∧
        padded.R = out.R ∧ padded.S = out.S := by
  obtain ⟨b, rest, hb⟩ := List.exists_cons_of_ne_nil h
  refine ⟨_, convert_of_cons sig b rest hb, ?_, ?_, ?_, ?_, ?_⟩
  · exact Int.natCast_nonneg _
  · exact Int.natCast_nonneg _
  · simp [SetBytes_eq_bigEndianValue]
  · simp [SetBytes_eq_bigEndianValue]
  · intro j k
    refine ⟨_, convert_of_cons _ b rest hb, ?_, ?_⟩
    · simp [SetBytes_prepend_zeros]
    · simp [SetBytes_prepend_zeros]

/-- C3 at a concrete raw signature: `R = [0x12, 0x34]` converts to 0x1234 and
`S = [0x00, 0xff]` to 0xff. -/
theorem R_S_big_endian_witness :
    (rawWithRecovery [0x01]).SignatureRecovery ≠ [] ∧
    convertSignatureTSStoECDSA (rawWithRecovery [0x01])
      = some { R := 0x1234, S := 0xff, RecoveryID := 1 } ∧
    ∃ out, convertSignatureTSStoECDSA (rawWithRecovery [0x01]) = some out ∧
      0 ≤ out.R ∧ 0 ≤ out.S ∧
      out.R = ((bigEndianValue (rawWithRecovery [0x01]).R : Nat) : Int) ∧
      out.S = ((bigEndianValue (rawWithRecovery [0x01]).S : Nat) : Int) ∧
      ∀ j k : Nat, ∃ padded,
        convertSignatureTSStoECDSA
          { rawWithRecovery [0x01] with
            R := List.replicate j (0 : Byte) ++ (rawWithRecovery [0x01]).R
            S := List.replicate k (0 : Byte) ++ (rawWithRecovery [0x01]).S } = some padded ∧
        padded.R = out.R ∧ padded.S = out.S :=
  ⟨by simp [rawWithRecovery], rfl,
    R_S_big_endian (rawWithRecovery [0x01]) (by simp [rawWithRecovery])⟩

/-- C9, counterexample: recovery bytes `[0x02]` are not empty and the conversion
returns RecoveryID 2, which is neither 0 nor 1. -/
theorem recoveryID_zero_or_one_counterexample :
    (rawWithRecovery [0x02]).SignatureRecovery ≠ [] ∧
    ∃ out, convertSignatureTSStoECDSA (rawWithRecovery [0x02]) = some out ∧
      ¬ (out.RecoveryID = 0 ∨ out.RecoveryID = 1) := by
  refine ⟨by simp [rawWithRecovery], _, convert_of_cons _ 0x02 [] rfl, ?_⟩
  decide

/-- C9, amended: for a raw signature whose recovery bytes are `b :: rest`, the
RecoveryID the conversion returns is the value of the byte `b`, so it lies
between 0 and 255, and it is 0 or 1 exactly when the byte `b` is 0 or 1. -/
theorem recoveryID_is_a_byte (sig : SignatureData) (b : Byte) (rest : Bytes)
    (h : sig.SignatureRecovery = b :: rest) :
    ∃ out, convertSignatureTSStoECDSA sig = some out ∧
      out.RecoveryID = (b.val : Int) ∧
      0 ≤ out.RecoveryID ∧ out.RecoveryID ≤ 255 ∧
      ((out.RecoveryID = 0 ∨ out.RecoveryID = 1) ↔ (b = 0 ∨ b = 1)) := by
  refine ⟨_, convert_of_cons sig b rest h, rfl, ?_, ?_, ?_⟩
  · exact Int.natCast_nonneg _
  · have := b.isLt
    show ((b.val : Nat) : Int) ≤ 255
    omega
  · show (((b.val : Nat) : Int) = 0 ∨ ((b.val : Nat) : Int) = 1) ↔ (b = 0 ∨ b = 1)
    constructor
    · rintro (h0 | h1)
      · left; apply Fin.ext; simp; omega
      · right; apply Fin.ext; simp; omega
    · rintro (h0 | h1)
      · left; subst h0; rfl
      · right; subst h1; rfl

/-- C9, amended, at recovery bytes `[0xff, 0x01]`: the RecoveryID is 255. -/
theorem recoveryID_is_a_byte_witness :
    (rawWithRecovery [0xff, 0x01]).SignatureRecovery = [0xff, 0x01] ∧
    ∃ out, convertSignatureTSStoECDSA (rawWithRecovery [0xff, 0x01]) = some out ∧
      out.RecoveryID = 255 ∧
      0 ≤ out.RecoveryID ∧ out.RecoveryID ≤ 255 ∧
      ((out.RecoveryID = 0 ∨ out.RecoveryID = 1) ↔ ((0xff : Byte) = 0 ∨ (0xff : Byte) = 1)) :=
  ⟨rfl, recoveryID_is_a_byte (rawWithRecovery [0xff, 0x01]) 0xff [0x01] rfl⟩

/-! ## Theorems: `Sign` -/

theorem runDeferredClose_open (r : SignResult) (h : r.signer.doneChan = DoneChan.isOpen)
    (hb : r.outcome ≠ Outcome.blocked) :
    runDeferredClose r =
      { outcome := r.outcome
        signer := { r.signer with doneChan := DoneChan.isClosed }
        trace := r.trace ++ [Effect.closeDone] } := by
  unfold runDeferredClose
  cases ho : r.outcome with
  | blocked => exact absurd ho hb
  | returned a b => simp [h]
  | panicked m => simp [h]

theorem runDeferredClose_closed (r : SignResult) (h : r.signer.doneChan = DoneChan.isClosed) :
    (runDeferredClose r).outcome = Outcome.blocked ∨
      (runDeferredClose r).outcome = Outcome.panicked "close of closed channel" := by
  unfold runDeferredClose
  cases ho : r.outcome with
  | blocked => left; simp [ho]
  | returned a b => right; simp [h]
  | panicked m => right; simp [h]

theorem runDeferredClose_returned (r : SignResult) (sig : Option Signature)
    (err : Option GoError) (h : (runDeferredClose r).outcome = Outcome.returned sig err) :
    r.outcome = Outcome.returned sig err ∧ r.signer.doneChan = DoneChan.isOpen := by
  unfold runDeferredClose at h
  cases ho : r.outcome with
  | blocked => rw [ho] at h; simp [ho] at h
  | returned a b =>
    rw [ho] at h
    cases hd : r.signer.doneChan <;> simp [hd] at h
    exact ⟨by rw [h.1, h.2], rfl⟩
  | panicked m =>
    rw [ho] at h
    cases hd : r.signer.doneChan <;> simp [hd] at h

theorem SignBody_doneChan (s : SigningSigner) (pick : Bool) :
    (SignBody s pick).signer.doneChan = s.doneChan := by
  unfold SignBody
  split
  · rfl
  · split
    · rfl
    · split
      · split <;> rfl
      · rfl
      · rfl

theorem SignBody_trace_no_close (s : SigningSigner) (pick : Bool) :
    (SignBody s pick).trace.count Effect.closeDone = 0 := by
  unfold SignBody
  split
  · rfl
  · split
    · rfl
    · split
      · split <;> rfl
      · rfl
      · rfl

theorem SignBody_returned_one_result (s : SigningSigner) (pick : Bool)
    (sig : Option Signature) (err : Option GoError)
    (h : (SignBody s pick).outcome = Outcome.returned sig err) :
    (sig.isSome = true ∧ err = none) ∨ (sig = none ∧ err.isSome = true) := by
  unfold SignBody at h
  split at h
  · simp at h; right; exact ⟨h.1.symm, by rw [← h.2]; rfl⟩
  · split at h
    · simp at h; right; exact ⟨h.1.symm, by rw [← h.2]; rfl⟩
    · split at h
      · split at h
        · simp at h; left; exact ⟨by rw [← h.1]; rfl, h.2.symm⟩
        · simp at h
      · simp at h; right; exact ⟨h.1.symm, by rw [← h.2]; rfl⟩
      · simp at h

theorem Sign_returned_one_result (s : SigningSigner) (pick : Bool)
    (sig : Option Signature) (err : Option GoError)
    (h : (Sign s pick).outcome = Outcome.returned sig err) :
    (sig.isSome = true ∧ err = none) ∨ (sig = none ∧ err.isSome = true) :=
  SignBody_returned_one_result s pick sig err (runDeferredClose_returned _ sig err h).1

theorem SignBody_signature (s : SigningSigner) (party : Party) (pick : Bool)
    (raw : SignatureData) (rest : Chan SignatureData)
    (hparty : s.signingParty = some party) (hstart : party.Start = none)
    (hsel : selectSinks s.signingEndChan s.signingErrChan pick = Selected.signature raw rest) :
    SignBody s pick =
      match convertSignatureTSStoECDSA raw with
      | some ecdsaSignature =>
        { outcome := Outcome.returned (some ecdsaSignature) none
          signer := { s with signingEndChan := rest }
          trace := [Effect.startParty, Effect.recvEnd] }
      | none =>
        { outcome := Outcome.panicked "index out of range"
          signer := { s with signingEndChan := rest }
          trace := [Effect.startParty, Effect.recvEnd] } := by
  unfold SignBody
  simp only [hparty, hstart, hsel]

theorem SignBody_failure (s : SigningSigner) (party : Party) (pick : Bool)
    (e : Option GoError) (rest : Chan (Option GoError))
    (hparty : s.signingParty = some party) (hstart : party.Start = none)
    (hsel : selectSinks s.signingEndChan s.signingErrChan pick = Selected.failure e rest) :
    SignBody s pick =
      { outcome := Outcome.returned none
          (some (Errorf1 "failed to sign: [" (party.WrapError e) "]"))
        signer := { s with signingErrChan := rest }
        trace := [Effect.startParty, Effect.recvErr] } := by
  unfold SignBody
  simp only [hparty, hstart, hsel]

theorem SignBody_start_failure (s : SigningSigner) (party : Party) (pick : Bool)
    (err : GoError) (hparty : s.signingParty = some party) (hstart : party.Start = some err) :
    SignBody s pick =
      { outcome := Outcome.returned none
          (some (Errorf1 "failed to start signing: [" (party.WrapError (some err)) "]"))
        signer := s
        trace := [Effect.startParty] } := by
  unfold SignBody
  simp only [hparty, hstart]

/-- C1, counterexample: a signer with an initialized party whose start succeeds,
`doneChan` open, and on the success sink a raw signature with no recovery byte.
The `select` takes that signature and `Sign` panics on `recoveryBytes[0]`: it
returns neither a signature nor an error. -/
theorem Sign_empty_recovery_counterexample :
    (readySigner (some readyParty) [rawWithRecovery []] []).signingParty.map Party.Start
        = some none ∧
    (∃ rest,
      selectSinks (readySigner (some readyParty) [rawWithRecovery []] []).signingEndChan
        (readySigner (some readyParty) [rawWithRecovery []] []).signingErrChan true
        = Selected.signature (rawWithRecovery []) rest) ∧
    (Sign (readySigner (some readyParty) [rawWithRecovery []] []) true).outcome
        = Outcome.panicked "index out of range" :=
  ⟨rfl, ⟨_, rfl⟩, rfl⟩

/-- C1, amended: for a signer with an initialized party whose start succeeds, on
its first call (`doneChan` open): when the `select` takes from the success sink
a raw signature with at least one recovery byte, `Sign` returns the conversion
of that signature and a nil error; when the `select` takes an error from the
error sink, `Sign` returns a nil signature and a non-nil error; and whenever any
call of `Sign` returns, exactly one of its two results is non-nil. -/
theorem Sign_two_outcomes (s : SigningSigner) (party : Party) (pick : Bool)
    (hparty : s.signingParty = some party) (hstart : party.Start = none)
    (hdone : s.doneChan = DoneChan.isOpen) :
    (∀ raw rest,
      selectSinks s.signingEndChan s.signingErrChan pick = Selected.signature raw rest →
      raw.SignatureRecovery ≠ [] →
      ∃ sig, convertSignatureTSStoECDSA raw = some sig ∧
        (Sign s pick).outcome = Outcome.returned (some sig) none) ∧
    (∀ e rest,
      selectSinks s.signingEndChan s.signingErrChan pick = Selected.failure e rest →
      (Sign s pick).outcome = Outcome.returned none
        (some (Errorf1 "failed to sign: [" (party.WrapError e) "]"))) ∧
    (∀ (t : SigningSigner) (choice : Bool) (sig : Option Signature) (err : Option GoError),
      (Sign t choice).outcome = Outcome.returned sig err →
      (sig.isSome = true ∧ err = none) ∨ (sig = none ∧ err.isSome = true)) := by
  refine ⟨?_, ?_, fun t choice sig err h => Sign_returned_one_result t choice sig err h⟩
  · intro raw rest hsel hne
    obtain ⟨b, tail, hb⟩ := List.exists_cons_of_ne_nil hne
    refine ⟨_, convert_of_cons raw b tail hb, ?_⟩
    have hbody := SignBody_signature s party pick raw rest hparty hstart hsel
    rw [convert_of_cons raw b tail hb] at hbody
    unfold Sign
    rw [runDeferredClose_open _ (by rw [SignBody_doneChan]; exact hdone)
      (by rw [hbody]; simp), hbody]
  · intro e rest hsel
    have hbody := SignBody_failure s party pick e rest hparty hstart hsel
    unfold Sign
    rw [runDeferredClose_open _ (by rw [SignBody_doneChan]; exact hdone)
      (by rw [hbody]; simp), hbody]

/-- C1, amended, at a signer with one raw signature (recovery bytes `[0x01]`)
ready on the success sink and nothing on the error sink. -/
theorem Sign_two_outcomes_witness :
    ∃ sig, convertSignatureTSStoECDSA (rawWithRecovery [0x01]) = some sig ∧
      (Sign (readySigner (some readyParty) [rawWithRecovery [0x01]] []) true).outcome
        = Outcome.returned (some sig) none :=
  (Sign_two_outcomes (readySigner (some readyParty) [rawWithRecovery [0x01]] [])
    readyParty true rfl rfl rfl).1 (rawWithRecovery [0x01]) _ rfl (by simp [rawWithRecovery])

/-- C4, counterexample: a signer whose party fails to start and whose `doneChan`
is already closed, with a signature and an error ready on the sinks. `Sign`
reaches `return nil, fmt.Errorf(...)`, the deferred `close` then panics on the
closed channel, and the call returns nothing. -/
theorem Sign_closed_doneChan_counterexample :
    (calledSigner (some failingParty) [rawWithRecovery [0x01]] [some "lost"]).signingParty.map
        Party.Start = some (some "could not start") ∧
    (Sign (calledSigner (some failingParty) [rawWithRecovery [0x01]] [some "lost"])
        true).outcome = Outcome.panicked "close of closed channel" ∧
    (Sign (calledSigner (some failingParty) [rawWithRecovery [0x01]] [some "lost"])
        false).outcome = Outcome.panicked "close of closed channel" :=
  ⟨rfl, rfl, rfl⟩

/-- C4, amended: for a signer whose party fails to start, `Sign` does not block,
performs `Start()` and the deferred `close` and nothing else, so it receives
from neither sink, and both sinks are afterwards as they were before; when
`doneChan` is open the call returns a nil signature and a non-nil error, and
when `doneChan` is already closed the call panics on the deferred `close`. -/
theorem Sign_start_failure (s : SigningSigner) (party : Party) (pick : Bool) (err : GoError)
    (hparty : s.signingParty = some party) (hstart : party.Start = some err) :
    (Sign s pick).signer.signingEndChan = s.signingEndChan ∧
    (Sign s pick).signer.signingErrChan = s.signingErrChan ∧
    Effect.recvEnd ∉ (Sign s pick).trace ∧
    Effect.recvErr ∉ (Sign s pick).trace ∧
    (Sign s pick).outcome ≠ Outcome.blocked ∧
    (s.doneChan = DoneChan.isOpen →
      (Sign s pick).outcome = Outcome.returned none
        (some (Errorf1 "failed to start signing: [" (party.WrapError (some err)) "]"))) ∧
    (Sign s pick).trace = [Effect.startParty, Effect.closeDone] ∧
    (s.doneChan = DoneChan.isClosed →
      (Sign s pick).outcome = Outcome.panicked "close of closed channel") := by
  have hbody := SignBody_start_failure s party pick err hparty hstart
  unfold Sign
  rw [hbody]
  cases hd : s.doneChan <;> simp [runDeferredClose, hd]

/-- C4, amended, at a signer whose party fails to start, with a signature and an
error ready on the sinks: both stay where they are, and the open `doneChan`
gives the returned error. -/
theorem Sign_start_failure_witness :
    (Sign (readySigner (some failingParty) [rawWithRecovery [0x01]] [some "lost"])
        true).signer.signingEndChan
      = { pending := [rawWithRecovery [0x01]], closed := false } ∧
    (Sign (readySigner (some failingParty) [rawWithRecovery [0x01]] [some "lost"])
        true).signer.signingErrChan
      = { pending := [some "lost"], closed := false } ∧
    (Sign (readySigner (some failingParty) [rawWithRecovery [0x01]] [some "lost"])
        true).outcome
      = Outcome.returned none (some "failed to start signing: [could not start]") ∧
    (Sign (readySigner (some failingParty) [rawWithRecovery [0x01]] [some "lost"])
        true).trace = [Effect.startParty, Effect.closeDone] :=
  have h := Sign_start_failure
    (readySigner (some failingParty) [rawWithRecovery [0x01]] [some "lost"])
    failingParty true "could not start" rfl rfl
  ⟨h.1, h.2.1, h.2.2.2.2.2.1 rfl, h.2.2.2.2.2.2.1⟩

theorem InitializeSigning_doneChan (newLocalParty : Nat → Option Party)
    (bridgeNetwork : Option GoError) (digest : Bytes) (s : SigningSigner)
    (h : InitializeSigning newLocalParty bridgeNetwork digest = Except.ok s) :
    s.doneChan = DoneChan.isOpen := by
  unfold InitializeSigning initializeSigningParty at h
  cases bridgeNetwork with
  | some e => simp at h
  | none =>
    simp at h
    rw [← h]

/-- C5: a signer that `InitializeSigning` returns has its `doneChan` open; and
for a call of `Sign` on a signer whose `doneChan` is open, whenever the call
returns (whatever the path), `doneChan` is closed afterwards and `close` was
executed on it exactly once. -/
theorem Sign_closes_doneChan_once (s : SigningSigner) (pick : Bool)
    (sig : Option Signature) (err : Option GoError)
    (hdone : s.doneChan = DoneChan.isOpen)
    (hret : (Sign s pick).outcome = Outcome.returned sig err) :
    (∀ (newLocalParty : Nat → Option Party) (bridgeNetwork : Option GoError) (digest : Bytes)
        (t : SigningSigner),
      InitializeSigning newLocalParty bridgeNetwork digest = Except.ok t →
      t.doneChan = DoneChan.isOpen) ∧
    (Sign s pick).signer.doneChan = DoneChan.isClosed ∧
    (Sign s pick).trace.count Effect.closeDone = 1 := by
  refine ⟨InitializeSigning_doneChan, ?_⟩
  have hb : (SignBody s pick).outcome ≠ Outcome.blocked := by
    intro hblocked
    unfold Sign runDeferredClose at hret
    rw [hblocked] at hret
    simp [hblocked] at hret
  have hopen : (SignBody s pick).signer.doneChan = DoneChan.isOpen := by
    rw [SignBody_doneChan]; exact hdone
  unfold Sign
  rw [runDeferredClose_open _ hopen hb]
  refine ⟨rfl, ?_⟩
  simp [List.count_append, SignBody_trace_no_close]

/-- C5 on the four returning paths of a first call: nil party, start failure,
signature received, error received. -/
theorem Sign_closes_doneChan_once_witness :
    ((Sign (readySigner none [] []) true).signer.doneChan = DoneChan.isClosed ∧
      (Sign (readySigner none [] []) true).trace.count Effect.closeDone = 1) ∧
    ((Sign (readySigner (some failingParty) [] []) true).signer.doneChan = DoneChan.isClosed ∧
      (Sign (readySigner (some failingParty) [] []) true).trace.count Effect.closeDone = 1) ∧
    ((Sign (readySigner (some readyParty) [rawWithRecovery [0x01]] []) true).signer.doneChan
        = DoneChan.isClosed ∧
      (Sign (readySigner (some readyParty) [rawWithRecovery [0x01]] []) true).trace.count
        Effect.closeDone = 1) ∧
    ((Sign (readySigner (some readyParty) [] [some "lost"]) true).signer.doneChan
        = DoneChan.isClosed ∧
      (Sign (readySigner (some readyParty) [] [some "lost"]) true).trace.count
        Effect.closeDone = 1) :=
  ⟨(Sign_closes_doneChan_once (readySigner none [] []) true none
      (some "failed to get initialized signing party") rfl rfl).2,
   (Sign_closes_doneChan_once (readySigner (some failingParty) [] []) true none
      (some "failed to start signing: [could not start]") rfl rfl).2,
   (Sign_closes_doneChan_once (readySigner (some readyParty) [rawWithRecovery [0x01]] []) true
      (some { R := 0x1234, S := 0xff, RecoveryID := 1 }) none rfl rfl).2,
   (Sign_closes_doneChan_once (readySigner (some readyParty) [] [some "lost"]) true none
      (some "failed to sign: [lost]") rfl rfl).2⟩

/-- C8, counterexample: a signer whose party fails to start. The first call of
`Sign` returns an error and leaves `doneChan` closed; the second call, on the
signer the first one left, panics on closing the closed channel and returns
nothing. -/
theorem Sign_second_call_counterexample :
    (Sign (readySigner (some failingParty) [] []) true).outcome
      = Outcome.returned none (some "failed to start signing: [could not start]") ∧
    (Sign (readySigner (some failingParty) [] []) true).signer.doneChan = DoneChan.isClosed ∧
    (Sign (Sign (readySigner (some failingParty) [] []) true).signer true).outcome
      = Outcome.panicked "close of closed channel" :=
  ⟨rfl, rfl, rfl⟩

theorem SignBody_blocked_iff (s : SigningSigner) (pick : Bool) :
    (SignBody s pick).outcome = Outcome.blocked ↔
      ((∃ party, s.signingParty = some party ∧ party.Start = none) ∧
        s.signingEndChan.pending = [] ∧ s.signingEndChan.closed = false ∧
        s.signingErrChan.pending = [] ∧ s.signingErrChan.closed = false) := by
  obtain ⟨party, ⟨endPending, endClosed⟩, ⟨errPending, errClosed⟩, done⟩ := s
  cases party with
  | none => simp [SignBody]
  | some p =>
    obtain ⟨start, wrap⟩ := p
    cases start with
    | some e => simp [SignBody]
    | none =>
      cases endPending <;> cases errPending <;> cases endClosed <;> cases errClosed <;>
        cases pick <;> simp [SignBody, selectSinks, Chan.recv] <;> split <;> simp

theorem runDeferredClose_blocked_iff (r : SignResult)
    (h : r.signer.doneChan = DoneChan.isClosed) :
    (runDeferredClose r).outcome = Outcome.blocked ↔ r.outcome = Outcome.blocked := by
  unfold runDeferredClose
  cases ho : r.outcome with
  | blocked => simp [ho]
  | returned a b => simp [h]
  | panicked m => simp [h]

/-- C8, amended: for a signer whose `doneChan` is already closed, a call of
`Sign` never returns a value. It stays blocked in the `select` exactly when the
party is not nil, its `Start()` returns nil and neither sink can yield (nothing
is ready on it and it is not closed); in every other case it panics on closing
the closed channel. -/
theorem Sign_second_call_never_returns (s : SigningSigner) (pick : Bool)
    (hdone : s.doneChan = DoneChan.isClosed) :
    (∀ (sig : Option Signature) (err : Option GoError),
      (Sign s pick).outcome ≠ Outcome.returned sig err) ∧
    ((Sign s pick).outcome = Outcome.panicked "close of closed channel" ∨
      (Sign s pick).outcome = Outcome.blocked) ∧
    ((Sign s pick).outcome = Outcome.blocked ↔
      ((∃ party, s.signingParty = some party ∧ party.Start = none) ∧
        s.signingEndChan.pending = [] ∧ s.signingEndChan.closed = false ∧
        s.signingErrChan.pending = [] ∧ s.signingErrChan.closed = false)) ∧
    (¬ ((∃ party, s.signingParty = some party ∧ party.Start = none) ∧
        s.signingEndChan.pending = [] ∧ s.signingEndChan.closed = false ∧
        s.signingErrChan.pending = [] ∧ s.signingErrChan.closed = false) →
      (Sign s pick).outcome = Outcome.panicked "close of closed channel") := by
  have hclosed : (SignBody s pick).signer.doneChan = DoneChan.isClosed := by
    rw [SignBody_doneChan]; exact hdone
  have h := runDeferredClose_closed (SignBody s pick) hclosed
  have hiff : (Sign s pick).outcome = Outcome.blocked ↔ _ :=
    (runDeferredClose_blocked_iff (SignBody s pick) hclosed).trans (SignBody_blocked_iff s pick)
  refine ⟨?_, ?_, hiff, ?_⟩
  · intro sig err hret
    unfold Sign at hret
    rcases h with h | h <;> rw [h] at hret <;> simp at hret
  · exact h.symm
  · intro hnot
    rcases h with h | h
    · exact absurd (hiff.mp h) hnot
    · exact h

/-- C8, amended, at the signer a first call has left: with a second signature
ready the second call panics, and with nothing ready on either sink it blocks. -/
theorem Sign_second_call_never_returns_witness :
    (Sign (Sign (readySigner (some readyParty)
        [rawWithRecovery [0x01], rawWithRecovery [0x00]] []) true).signer true).outcome
      = Outcome.panicked "close of closed channel" ∧
    (Sign (Sign (readySigner (some readyParty) [rawWithRecovery [0x01]] []) true).signer
        true).outcome = Outcome.blocked :=
  ⟨(Sign_second_call_never_returns
      (Sign (readySigner (some readyParty)
        [rawWithRecovery [0x01], rawWithRecovery [0x00]] []) true).signer true rfl).2.2.2
      (by decide),
   (Sign_second_call_never_returns
      (Sign (readySigner (some readyParty) [rawWithRecovery [0x01]] []) true).signer
        true rfl).2.2.1.mpr ⟨⟨readyParty, rfl, rfl⟩, rfl, rfl, rfl, rfl⟩⟩

/-! ## Theorems: the test network -/

theorem Store_keys (m : SyncMap) (key : Bytes) (value : testChannel) :
    (SyncMap.Store m key value).keys = if key ∈ m.keys then m.keys else m.keys ++ [key] := by
  induction m with
  | nil => simp [SyncMap.Store, SyncMap.keys]
  | cons e rest ih =>
    obtain ⟨k, v⟩ := e
    unfold SyncMap.keys at ih ⊢
    by_cases hk : k = key
    · simp [SyncMap.Store, hk]
    · have hk2 : ¬ key = k := fun h => hk h.symm
      simp only [SyncMap.Store, hk, if_false, List.map_cons, ih, List.mem_cons, hk2, false_or]
      split <;> simp

theorem register_KeysDistinct (c : testNetwork) (name : Bytes) (channel : testChannel)
    (h : c.channels.KeysDistinct) : (c.register name channel).channels.KeysDistinct := by
  unfold SyncMap.KeysDistinct at h ⊢
  unfold testNetwork.register
  simp only [Store_keys]
  split
  · exact h
  · rename_i hnot
    rw [List.nodup_append]
    refine ⟨h, List.nodup_singleton _, ?_⟩
    intro a ha hb
    rw [List.mem_singleton] at hb
    subst hb
    exact hnot ha

theorem deliverVisit_eq (message : Message) (started : List DeliveryTask) (key : Bytes)
    (channel : testChannel) :
    deliverVisit message started key channel =
      if message.From.Key = key then (started, true)
      else
        match message.To with
        | none =>
          (started ++
            [{ key := key, channel := channel, message := message,
               kind := DeliveryKind.broadcast }], true)
        | some destinations =>
          (started ++ unicastLoop key channel message destinations, true) := rfl

theorem deliverVisit_append (message : Message) (started : List DeliveryTask) (key : Bytes)
    (channel : testChannel) :
    deliverVisit message started key channel
      = (started ++ (deliverVisit message [] key channel).1, true) := by
  rw [deliverVisit_eq, deliverVisit_eq]
  by_cases hs : message.From.Key = key
  · simp [hs]
  · cases hto : message.To <;> simp [hs]

theorem Range_deliverVisit (m : SyncMap) (message : Message) (init : List DeliveryTask) :
    SyncMap.Range m (deliverVisit message) init
      = init ++ SyncMap.Range m (deliverVisit message) [] := by
  induction m generalizing init with
  | nil => simp [SyncMap.Range]
  | cons e rest ih =>
    obtain ⟨k, v⟩ := e
    have h1 := deliverVisit_append message init k v
    have h2 := deliverVisit_append message [] k v
    simp only [List.nil_append] at h2
    unfold SyncMap.Range
    rw [h1]
    simp only
    rw [ih (init ++ (deliverVisit message [] k v).1)]
    generalize hv : deliverVisit message [] k v = r at h2 ⊢
    obtain ⟨tasks, flag⟩ := r
    simp only at h2
    have hflag : flag = true := (Prod.mk.inj h2).2
    subst hflag
    simp only
    rw [ih tasks, List.append_assoc]

theorem deliver_nil (message : Message) :
    testNetwork.deliver { channels := [] } message = [] := by
  simp [testNetwork.deliver, SyncMap.Range]

theorem deliver_cons (k : Bytes) (v : testChannel) (rest : SyncMap) (message : Message) :
    testNetwork.deliver { channels := (k, v) :: rest } message
      = (deliverVisit message [] k v).1 ++ testNetwork.deliver { channels := rest } message := by
  have h2 := deliverVisit_append message [] k v
  simp only [List.nil_append] at h2
  unfold testNetwork.deliver
  simp only
  rw [SyncMap.Range]
  generalize hv : deliverVisit message [] k v = r at h2 ⊢
  obtain ⟨tasks, flag⟩ := r
  simp only at h2
  have hflag : flag = true := (Prod.mk.inj h2).2
  subst hflag
  simp only
  rw [Range_deliverVisit]

theorem unicastLoop_keys (key : Bytes) (channel : testChannel) (message : Message)
    (destinations : List PartyID) :
    (unicastLoop key channel message destinations).map DeliveryTask.key
      = if key ∈ destinations.map PartyID.Key then [key] else [] := by
  induction destinations with
  | nil => simp [unicastLoop]
  | cons d rest ih =>
    unfold unicastLoop
    by_cases hd : d.Key = key
    · simp [hd]
    · have hd2 : ¬ key = d.Key := fun h => hd h.symm
      simp only [hd, if_false, ih, List.map_cons, List.mem_cons, hd2, false_or]

theorem unicastLoop_registered (key : Bytes) (channel : testChannel) (message : Message)
    (destinations : List PartyID) (t : DeliveryTask)
    (ht : t ∈ unicastLoop key channel message destinations) :
    t.key = key ∧ t.channel = channel ∧ t.message = message := by
  induction destinations with
  | nil => simp [unicastLoop] at ht
  | cons d rest ih =>
    unfold unicastLoop at ht
    split at ht
    · rw [List.mem_singleton] at ht
      subst ht
      exact ⟨rfl, rfl, rfl⟩
    · exact ih ht

theorem deliverVisit_keys (message : Message) (k : Bytes) (v : testChannel) :
    (deliverVisit message [] k v).1.map DeliveryTask.key
      = if message.reaches k = true then [k] else [] := by
  unfold deliverVisit Message.reaches
  by_cases hs : message.From.Key = k
  · simp [hs]
  · cases hto : message.To with
    | none => simp [hs]
    | some ds =>
      simp only [hs, if_false, List.nil_append, unicastLoop_keys]
      by_cases hm : k ∈ ds.map PartyID.Key <;> simp [hm, hs]

theorem deliver_keys (c : testNetwork) (message : Message) :
    (c.deliver message).map DeliveryTask.key = c.channels.keys.filter message.reaches := by
  obtain ⟨m⟩ := c
  induction m with
  | nil => simp [deliver_nil, SyncMap.keys]
  | cons e rest ih =>
    obtain ⟨k, v⟩ := e
    rw [deliver_cons, List.map_append, ih, deliverVisit_keys]
    simp only [SyncMap.keys, List.map_cons, List.filter_cons]
    split <;> simp

theorem deliver_registered (c : testNetwork) (message : Message) (t : DeliveryTask)
    (ht : t ∈ c.deliver message) :
    (t.key, t.channel) ∈ c.channels ∧ t.message = message := by
  obtain ⟨m⟩ := c
  induction m with
  | nil => simp [deliver_nil] at ht
  | cons e rest ih =>
    obtain ⟨k, v⟩ := e
    rw [deliver_cons, List.mem_append] at ht
    rcases ht with ht | ht
    · have hhere : t.key = k ∧ t.channel = v ∧ t.message = message := by
        rw [deliverVisit_eq] at ht
        by_cases hs : message.From.Key = k
        · simp [hs] at ht
        · cases hto : message.To with
          | none =>
            simp only [hs, hto, if_false, List.nil_append, List.mem_singleton] at ht
            subst ht
            exact ⟨rfl, rfl, rfl⟩
          | some ds =>
            simp only [hs, hto, if_false, List.nil_append] at ht
            exact unicastLoop_registered _ _ _ _ _ ht
      refine ⟨?_, hhere.2.2⟩
      rw [hhere.1, hhere.2.1]
      exact List.mem_cons_self _ _
    · have h := ih ht
      exact ⟨List.mem_cons_of_mem _ h.1, h.2⟩

theorem goroutinesFor_eq (c : testNetwork) (message : Message) (key : Bytes) :
    goroutinesFor (c.deliver message) key
      = if message.reaches key = true then c.channels.keys.count key else 0 := by
  unfold goroutinesFor
  rw [deliver_keys]
  split
  · rename_i h
    exact List.count_filter h
  · rename_i h
    apply List.count_eq_zero_of_not_mem
    intro hmem
    exact h (List.mem_filter.mp hmem).2

theorem run_of_handler (t : DeliveryTask) (handler : Message → Option GoError)
    (h : t.channel.handler = some handler) :
    t.run = some ((handler t.message).map fun err =>
      match t.kind with
      | DeliveryKind.broadcast =>
        Errorf1 "failed to deliver broadcasted message: " (some err) ""
      | DeliveryKind.unicast =>
        Errorf1 "failed to deliver unicasted message: " (some err) "") := by
  unfold DeliveryTask.run
  rw [h]
  cases hres : handler t.message with
  | none => simp [hres]
  | some err => cases hk : t.kind <;> simp [hres, hk]

theorem run_of_nil_handler (t : DeliveryTask) (h : t.channel.handler = none) :
    t.run = none := by
  unfold DeliveryTask.run
  rw [h]

theorem run_isSome_of_handler (t : DeliveryTask) (h : t.channel.handler ≠ none) :
    t.run.isSome = true := by
  cases hh : t.channel.handler with
  | none => exact absurd hh h
  | some handler => rw [run_of_handler t handler hh]; rfl

theorem invocations_le_goroutinesFor (tasks : List DeliveryTask) (key : Bytes) :
    invocations tasks key ≤ goroutinesFor tasks key := by
  unfold invocations goroutinesFor
  induction tasks with
  | nil => simp
  | cons t rest ih =>
    rw [List.countP_cons, List.map_cons, List.count_cons]
    have hif : (if (decide (t.key = key) && t.run.isSome) = true then 1 else 0)
        ≤ (if (t.key == key) = true then 1 else 0) := by
      by_cases hk : t.key = key
      · have hb : (t.key == key) = true := by simp [hk]
        rw [hb]
        split <;> simp
      · have hd : decide (t.key = key) = false := by simp [hk]
        rw [hd]
        simp
    omega

theorem invocations_eq_goroutinesFor (tasks : List DeliveryTask) (key : Bytes)
    (h : ∀ t ∈ tasks, t.key = key → t.channel.handler ≠ none) :
    invocations tasks key = goroutinesFor tasks key := by
  unfold invocations goroutinesFor
  induction tasks with
  | nil => simp
  | cons t rest ih =>
    have ih2 := ih (fun u hu => h u (List.mem_cons_of_mem _ hu))
    rw [List.countP_cons, List.map_cons, List.count_cons, ih2]
    have hif : (if (decide (t.key = key) && t.run.isSome) = true then 1 else 0)
        = (if (t.key == key) = true then 1 else 0) := by
      by_cases hk : t.key = key
      · have hb : (t.key == key) = true := by simp [hk]
        have hd : decide (t.key = key) = true := by simp [hk]
        have hrun := run_isSome_of_handler t (h t (List.mem_cons_self _ _) hk)
        rw [hb, hd, hrun]
        rfl
      · have hb : (t.key == key) = false := beq_false_of_ne hk
        have hd : decide (t.key = key) = false := by simp [hk]
        rw [hb, hd]
        rfl
    omega

theorem invocations_eq_zero (tasks : List DeliveryTask) (key : Bytes)
    (h : goroutinesFor tasks key = 0) : invocations tasks key = 0 := by
  have hle := invocations_le_goroutinesFor tasks key
  omega

theorem unicastLoop_kind (key : Bytes) (channel : testChannel) (message : Message)
    (destinations : List PartyID) (t : DeliveryTask)
    (ht : t ∈ unicastLoop key channel message destinations) :
    t.kind = DeliveryKind.unicast := by
  induction destinations with
  | nil => simp [unicastLoop] at ht
  | cons d rest ih =>
    unfold unicastLoop at ht
    split at ht
    · rw [List.mem_singleton] at ht
      subst ht
      rfl
    · exact ih ht

theorem deliver_kind (c : testNetwork) (message : Message) (t : DeliveryTask)
    (ht : t ∈ c.deliver message) :
    t.kind = match message.To with
      | none => DeliveryKind.broadcast
      | some _ => DeliveryKind.unicast := by
  obtain ⟨m⟩ := c
  induction m with
  | nil => simp [deliver_nil] at ht
  | cons e rest ih =>
    obtain ⟨k, v⟩ := e
    rw [deliver_cons, List.mem_append] at ht
    rcases ht with ht | ht
    · rw [deliverVisit_eq] at ht
      by_cases hs : message.From.Key = k
      · simp [hs] at ht
      · cases hto : message.To with
        | none =>
          simp only [hs, hto, if_false, List.nil_append, List.mem_singleton] at ht
          subst ht
          rfl
        | some ds =>
          simp only [hs, hto, if_false, List.nil_append] at ht
          exact unicastLoop_kind _ _ _ _ _ ht
    · exact ih ht

theorem deliver_run (c : testNetwork) (message : Message) (t : DeliveryTask)
    (handler : Message → Option GoError) (ht : t ∈ c.deliver message)
    (hh : t.channel.handler = some handler) :
    t.run = some ((handler message).map fun err =>
      match message.To with
      | none => Errorf1 "failed to deliver broadcasted message: " (some err) ""
      | some _ => Errorf1 "failed to deliver unicasted message: " (some err) "") := by
  rw [run_of_handler t handler hh, (deliver_registered c message t ht).2,
    deliver_kind c message t ht]
  cases message.To <;> rfl

theorem count_eq_one_of_nodup {α : Type} [BEq α] [LawfulBEq α] {a : α} {l : List α}
    (h : l.Nodup) (ha : a ∈ l) : l.count a = 1 := by
  induction l with
  | nil => simp at ha
  | cons b t ih =>
    rw [List.nodup_cons] at h
    rw [List.count_cons]
    rcases List.mem_cons.mp ha with hab | hat
    · subst hab
      simp [List.count_eq_zero_of_not_mem h.1]
    · have hne : (b == a) = false := by
        apply beq_false_of_ne
        intro hba
        subst hba
        exact h.1 hat
      simp [hne, ih h.2 hat]

theorem newTestNetwork_KeysDistinct : newTestNetwork.channels.KeysDistinct :=
  List.nodup_nil

theorem threeMemberNetwork_KeysDistinct : threeMemberNetwork.channels.KeysDistinct :=
  register_KeysDistinct _ _ _
    (register_KeysDistinct _ _ _
      (register_KeysDistinct _ _ _ newTestNetwork_KeysDistinct))

theorem unreadyNetwork_KeysDistinct : unreadyNetwork.channels.KeysDistinct :=
  register_KeysDistinct _ _ _ (register_KeysDistinct _ _ _ newTestNetwork_KeysDistinct)

theorem threeMemberNetwork_handlers (key : Bytes) (channel : testChannel)
    (h : (key, channel) ∈ threeMemberNetwork.channels) : channel.handler ≠ none := by
  have hc : threeMemberNetwork.channels
      = [([100], acceptingChannel), ([101], acceptingChannel), ([102], acceptingChannel)] :=
    rfl
  rw [hc] at h
  simp only [List.mem_cons, Prod.mk.injEq, List.mem_nil_iff, or_false] at h
  rcases h with h | h | h <;> rw [h.2] <;> simp [acceptingChannel, testChannel.Receive]

theorem reaches_broadcast (message : Message) (key : Bytes) (hto : message.To = none) :
    message.reaches key = decide (message.From.Key ≠ key) := by
  simp [Message.reaches, hto]

theorem reaches_unicast (message : Message) (key : Bytes) (destinations : List PartyID)
    (hto : message.To = some destinations) :
    message.reaches key
      = (decide (message.From.Key ≠ key) && decide (key ∈ destinations.map PartyID.Key)) := by
  simp [Message.reaches, hto]

theorem reaches_sender (message : Message) : message.reaches message.From.Key = false := by
  simp [Message.reaches]

/-- C6, counterexample: member 101 is registered and has not called `Receive`,
so the handler of its channel is nil. For a broadcast of member 100 `deliver`
starts one goroutine, for the key 101, and that goroutine panics on the nil
handler: no handler is called, where the claim has one call. -/
theorem nil_handler_broadcast_counterexample :
    unreadyNetwork.channels.keys = [[100], [101]] ∧
    (messageFrom100 none).To = none ∧
    (unreadyNetwork.deliver (messageFrom100 none)).map DeliveryTask.key = [[101]] ∧
    (unreadyNetwork.deliver (messageFrom100 none)).map DeliveryTask.run = [none] ∧
    invocations (unreadyNetwork.deliver (messageFrom100 none)) [101] = 0 :=
  ⟨rfl, rfl, rfl, rfl, rfl⟩

/-- C6, amended: for a registry that holds the sender and in which every channel
other than that of the sender has a handler installed, and a message whose
recipient slice is nil, `deliver` calls the handler registered under every key
other than that of the sender exactly once and the handler of the sender never:
it starts as many goroutines as there are registered channels less one, and each
of them calls the handler of the channel registered under its key with this
message. -/
theorem deliver_broadcast (c : testNetwork) (message : Message)
    (hkeys : c.channels.KeysDistinct) (hsender : message.From.Key ∈ c.channels.keys)
    (hto : message.To = none)
    (hhandlers : ∀ key channel, (key, channel) ∈ c.channels → key ≠ message.From.Key →
      channel.handler ≠ none) :
    (∀ key ∈ c.channels.keys, key ≠ message.From.Key →
      invocations (c.deliver message) key = 1) ∧
    invocations (c.deliver message) message.From.Key = 0 ∧
    (c.deliver message).length = c.channels.length - 1 ∧
    (∀ t ∈ c.deliver message, (t.key, t.channel) ∈ c.channels ∧ t.message = message) ∧
    (∀ t ∈ c.deliver message, ∃ handler, t.channel.handler = some handler ∧
      t.run = some ((handler message).map fun err =>
        Errorf1 "failed to deliver broadcasted message: " (some err) "")) := by
  refine ⟨?_, ?_, ?_, fun t ht => deliver_registered c message t ht, ?_⟩
  · intro key hmem hne
    have hall : ∀ t ∈ c.deliver message, t.key = key → t.channel.handler ≠ none := by
      intro t ht hk
      exact hhandlers t.key t.channel (deliver_registered c message t ht).1 (by rw [hk]; exact hne)
    rw [invocations_eq_goroutinesFor _ _ hall, goroutinesFor_eq,
      reaches_broadcast message key hto]
    have hne2 : message.From.Key ≠ key := fun h => hne h.symm
    simp only [hne2, ne_eq, not_false_eq_true, decide_True, if_true]
    exact count_eq_one_of_nodup hkeys hmem
  · apply invocations_eq_zero
    rw [goroutinesFor_eq, reaches_sender]
    simp
  · have hlen : (c.deliver message).length
        = (c.channels.keys.filter message.reaches).length := by
      rw [← deliver_keys, List.length_map]
    have hsplit := List.length_eq_countP_add_countP message.reaches c.channels.keys
    have hcount : List.countP (fun a => decide ¬ message.reaches a = true) c.channels.keys
        = List.count message.From.Key c.channels.keys := by
      unfold List.count
      apply List.countP_congr
      intro k _
      rw [reaches_broadcast message k hto]
      by_cases hk : message.From.Key = k
      · simp [hk]
      · have hk2 : (k == message.From.Key) = false :=
          beq_false_of_ne (fun h => hk h.symm)
        simp [hk, hk2]
    have hone : List.count message.From.Key c.channels.keys = 1 :=
      count_eq_one_of_nodup hkeys hsender
    have hklen : c.channels.keys.length = c.channels.length := by
      simp [SyncMap.keys]
    rw [hlen, ← List.countP_eq_length_filter]
    omega
  · intro t ht
    have hreg := deliver_registered c message t ht
    have hkey : t.key ≠ message.From.Key := by
      have hmem : t.key ∈ (c.deliver message).map DeliveryTask.key :=
        List.mem_map_of_mem _ ht
      rw [deliver_keys, List.mem_filter, reaches_broadcast message t.key hto] at hmem
      intro heq
      have h2 := hmem.2
      simp [heq] at h2
    cases hh : t.channel.handler with
    | none => exact absurd hh (hhandlers t.key t.channel hreg.1 hkey)
    | some handler =>
      refine ⟨handler, rfl, ?_⟩
      rw [deliver_run c message t handler ht hh, hto]

/-- C6, amended, on the network of members 100, 101, 102, all with a handler,
and a broadcast of member 100: two goroutines, for the keys 101 and 102, each
calling a handler. -/
theorem deliver_broadcast_witness :
    (∀ key ∈ threeMemberNetwork.channels.keys, key ≠ (messageFrom100 none).From.Key →
      invocations (threeMemberNetwork.deliver (messageFrom100 none)) key = 1) ∧
    invocations (threeMemberNetwork.deliver (messageFrom100 none))
      (messageFrom100 none).From.Key = 0 ∧
    (threeMemberNetwork.deliver (messageFrom100 none)).length = 2 ∧
    (threeMemberNetwork.deliver (messageFrom100 none)).map DeliveryTask.key
      = [[101], [102]] ∧
    (threeMemberNetwork.deliver (messageFrom100 none)).map DeliveryTask.run
      = [some none, some none] :=
  have h := deliver_broadcast threeMemberNetwork (messageFrom100 none)
    threeMemberNetwork_KeysDistinct (by decide) rfl
    (fun key channel hmem _ => threeMemberNetwork_handlers key channel hmem)
  ⟨h.1, h.2.1, h.2.2.1, rfl, rfl⟩

/-- C7, counterexample: member 101 is registered and has not called `Receive`.
For a message of member 100 to member 101 alone, a registered member that is not
the sender, `deliver` starts one goroutine, for the key 101, and that goroutine
panics on the nil handler: no handler is called, where the claim has one
call. -/
theorem nil_handler_unicast_counterexample :
    unreadyNetwork.channels.keys = [[100], [101]] ∧
    (messageFrom100 (some [memberID 101])).To = some [memberID 101] ∧
    (unreadyNetwork.deliver (messageFrom100 (some [memberID 101]))).map DeliveryTask.key
      = [[101]] ∧
    (unreadyNetwork.deliver (messageFrom100 (some [memberID 101]))).map DeliveryTask.run
      = [none] ∧
    invocations (unreadyNetwork.deliver (messageFrom100 (some [memberID 101]))) [101] = 0 :=
  ⟨rfl, rfl, rfl, rfl, rfl⟩

/-- C7, amended: for a message whose recipient slice holds `k` members with
distinct keys, all registered with a handler installed and none the sender,
`deliver` starts exactly `k` goroutines and calls the handler of each recipient
exactly once and no other handler, each goroutine calling the handler of the
channel registered under its key with this message; and for every message with a
recipient slice that is not nil (non-empty or not, whatever it holds and whatever
the handlers), every goroutine `deliver` starts is for a key in the slice that
is not the key of the sender, and no handler is called for any other key. -/
theorem deliver_unicast (c : testNetwork) (message : Message) (destinations : List PartyID)
    (hkeys : c.channels.KeysDistinct)
    (hto : message.To = some destinations)
    (hdistinct : (destinations.map PartyID.Key).Nodup)
    (hregistered : ∀ d ∈ destinations, d.Key ∈ c.channels.keys)
    (hothers : ∀ d ∈ destinations, d.Key ≠ message.From.Key)
    (hhandlers : ∀ d ∈ destinations, ∀ channel, (d.Key, channel) ∈ c.channels →
      channel.handler ≠ none) :
    (c.deliver message).length = destinations.length ∧
    (∀ d ∈ destinations, invocations (c.deliver message) d.Key = 1) ∧
    (∀ key, key ∉ destinations.map PartyID.Key → invocations (c.deliver message) key = 0) ∧
    (∀ t ∈ c.deliver message, (t.key, t.channel) ∈ c.channels ∧ t.message = message) ∧
    (∀ t ∈ c.deliver message, ∃ handler, t.channel.handler = some handler ∧
      t.run = some ((handler message).map fun err =>
        Errorf1 "failed to deliver unicasted message: " (some err) "")) ∧
    (∀ (net : testNetwork) (msg : Message) (recipients : List PartyID),
      msg.To = some recipients →
      (∀ t ∈ net.deliver msg,
        t.key ∈ recipients.map PartyID.Key ∧ t.key ≠ msg.From.Key) ∧
      (∀ key, key ∉ recipients.map PartyID.Key ∨ key = msg.From.Key →
        invocations (net.deliver msg) key = 0)) := by
  have hin : ∀ (net : testNetwork) (msg : Message) (recipients : List PartyID),
      msg.To = some recipients → ∀ t ∈ net.deliver msg,
        t.key ∈ recipients.map PartyID.Key ∧ t.key ≠ msg.From.Key := by
    intro net msg recipients hmsg t ht
    have hmem : t.key ∈ (net.deliver msg).map DeliveryTask.key := List.mem_map_of_mem _ ht
    rw [deliver_keys, List.mem_filter, reaches_unicast msg t.key recipients hmsg] at hmem
    have h := hmem.2
    simp only [Bool.and_eq_true, decide_eq_true_eq] at h
    exact ⟨h.2, fun heq => h.1 heq.symm⟩
  refine ⟨?_, ?_, ?_, fun t ht => deliver_registered c message t ht, ?_, ?_⟩
  · have hperm : (c.channels.keys.filter message.reaches).Perm
        (destinations.map PartyID.Key) := by
      rw [List.perm_ext_iff_of_nodup (List.Nodup.filter _ hkeys) hdistinct]
      intro a
      rw [List.mem_filter, reaches_unicast message a destinations hto]
      constructor
      · rintro ⟨_, h⟩
        simp only [Bool.and_eq_true, decide_eq_true_eq] at h
        exact h.2
      · intro ha
        obtain ⟨d, hd, hda⟩ := List.mem_map.mp ha
        subst hda
        refine ⟨hregistered d hd, ?_⟩
        simp only [Bool.and_eq_true, decide_eq_true_eq]
        exact ⟨fun h => hothers d hd h.symm, ha⟩
    have hlen := hperm.length_eq
    rw [← deliver_keys, List.length_map, List.length_map] at hlen
    exact hlen
  · intro d hd
    have hall : ∀ t ∈ c.deliver message, t.key = d.Key → t.channel.handler ≠ none := by
      intro t ht hk
      have hreg := (deliver_registered c message t ht).1
      rw [hk] at hreg
      exact hhandlers d hd t.channel hreg
    rw [invocations_eq_goroutinesFor _ _ hall, goroutinesFor_eq,
      reaches_unicast message d.Key destinations hto]
    have h1 : message.From.Key ≠ d.Key := fun h => hothers d hd h.symm
    have h2 : d.Key ∈ destinations.map PartyID.Key := List.mem_map_of_mem _ hd
    simp only [h1, h2, ne_eq, not_false_eq_true, decide_True, Bool.and_self, if_true]
    exact count_eq_one_of_nodup hkeys (hregistered d hd)
  · intro key hkey
    apply invocations_eq_zero
    rw [goroutinesFor_eq, reaches_unicast message key destinations hto]
    simp [hkey]
  · intro t ht
    have hreg := deliver_registered c message t ht
    obtain ⟨d, hd, hdk⟩ := List.mem_map.mp (hin c message destinations hto t ht).1
    cases hh : t.channel.handler with
    | none =>
      have hreg2 := hreg.1
      rw [← hdk] at hreg2
      exact absurd hh (hhandlers d hd t.channel hreg2)
    | some handler =>
      refine ⟨handler, rfl, ?_⟩
      rw [deliver_run c message t handler ht hh, hto]
  · intro net msg recipients hmsg
    refine ⟨hin net msg recipients hmsg, ?_⟩
    intro key hkey
    apply invocations_eq_zero
    rw [goroutinesFor_eq, reaches_unicast msg key recipients hmsg]
    rcases hkey with hkey | hkey
    · simp [hkey]
    · simp [hkey]

/-- C7, amended, on the network of members 100, 101, 102, all with a handler,
and a message of member 100 for member 102 alone: one goroutine, for the key
102, calling a handler. -/
theorem deliver_unicast_witness :
    (threeMemberNetwork.deliver (messageFrom100 (some [memberID 102]))).length = 1 ∧
    invocations (threeMemberNetwork.deliver (messageFrom100 (some [memberID 102]))) [102] = 1 ∧
    invocations (threeMemberNetwork.deliver (messageFrom100 (some [memberID 102]))) [101] = 0 ∧
    (threeMemberNetwork.deliver (messageFrom100 (some [memberID 102]))).map DeliveryTask.key
      = [[102]] ∧
    (threeMemberNetwork.deliver (messageFrom100 (some [memberID 102]))).map DeliveryTask.run
      = [some none] :=
  have h := deliver_unicast threeMemberNetwork (messageFrom100 (some [memberID 102]))
    [memberID 102] threeMemberNetwork_KeysDistinct rfl (by decide) (by decide) (by decide)
    (fun _ _ channel hmem => threeMemberNetwork_handlers _ channel hmem)
  ⟨h.1, h.2.1 (memberID 102) (List.mem_singleton.mpr rfl), h.2.2.1 [101] (by decide), rfl,
    rfl⟩

/-- C10, counterexample: on the network of members 100, 101, 102, a message of
member 100 whose recipient slice is present with length zero starts no goroutine,
while the same message with a nil slice starts one for each of 101 and 102. -/
theorem deliver_zero_length_counterexample :
    (threeMemberNetwork.deliver (messageFrom100 (some []))).map DeliveryTask.key = [] ∧
    (threeMemberNetwork.deliver (messageFrom100 none)).map DeliveryTask.key
      = [[101], [102]] ∧
    (threeMemberNetwork.deliver (messageFrom100 (some []))).length
      ≠ (threeMemberNetwork.deliver (messageFrom100 none)).length := by
  refine ⟨rfl, rfl, ?_⟩
  decide

/-- C10, amended: for every registry and every message whose recipient slice is
present with length zero, `deliver` starts no goroutine: no handler is called. -/
theorem deliver_empty_recipients (c : testNetwork) (message : Message)
    (hto : message.To = some []) :
    c.deliver message = [] ∧ ∀ key, invocations (c.deliver message) key = 0 := by
  have hnil : c.deliver message = [] := by
    have h := deliver_keys c message
    have hfilter : c.channels.keys.filter message.reaches = [] := by
      rw [List.filter_eq_nil_iff]
      intro a _
      rw [reaches_unicast message a [] hto]
      simp
    rw [hfilter] at h
    exact List.map_eq_nil_iff.mp h
  refine ⟨hnil, fun key => ?_⟩
  rw [hnil]
  rfl

/-- C10, amended, on the network of members 100, 101, 102. -/
theorem deliver_empty_recipients_witness :
    (messageFrom100 (some [])).To = some [] ∧
    threeMemberNetwork.deliver (messageFrom100 (some [])) = [] :=
  ⟨rfl, (deliver_empty_recipients threeMemberNetwork (messageFrom100 (some [])) rfl).1⟩

end KeepEcdsa
